import Mathlib

/-
Verification of the audio-analysis core of DesktopRobot
(src/backend/scripts/analyze_audio.py).

The script's musical decision logic is embedded shallowly:

* floating-point values are idealized as rational numbers (the inputs the
  claims exercise are all decimal, so every computation is exact);
* the Pearson correlation `np.corrcoef(x, y)[0, 1]` is represented by its
  signed square `sscVal x y = cov * |cov| / (var x * var y)`, which is the
  image of the correlation under the strictly monotone map `t ↦ t * |t|`.
  All the program ever does with a correlation is compare it (`corr >
  best`, with `best` starting at the sentinel `-1`, a fixed point of
  `t ↦ t * |t|`), so this representation preserves the control flow
  exactly while staying inside ℚ.  The real-valued detector
  `detect_key_bestR`, written with the genuine Pearson coefficient over ℝ,
  is proved to coincide with the executable one (`detect_key_bestR_eq`);
* `np.corrcoef` on a zero-variance input yields NaN, and every comparison
  `NaN > best` is false.  The executable model guards each comparison with
  the exact condition under which the correlation is defined
  (`rawCov x x ≠ 0 ∧ rawCov y y ≠ 0`), so a zero-variance chroma vector
  never updates the running best, exactly like NaN;
* the external collaborators (audio decoding, librosa feature extraction)
  are abstracted as an `Except String AudioFeatures` input to the
  pipeline: `Except.error e` models an exception with message `e` raised
  by decoding/extraction and caught by `analyze_audio`'s `try/except`.
-/

section AnalyzeAudio

attribute [local semireducible] Rat.add Rat.mul Rat.sub Rat.inv Rat.ofScientific

set_option maxRecDepth 100000

/-- A time-averaged chroma vector: 12 pitch-class energies, C = 0 … B = 11. -/
abbrev Chroma := Fin 12 → ℚ

/-- Krumhansl-Schmuckler major key profile (analyze_audio.py line 75). -/
def major_profile : Chroma :=
  ![6.35, 2.23, 3.48, 2.33, 4.38, 4.09, 2.52, 5.19, 2.39, 3.66, 2.29, 2.88]

/-- Krumhansl-Schmuckler minor key profile (analyze_audio.py line 76). -/
def minor_profile : Chroma :=
  ![6.33, 2.68, 3.52, 5.38, 2.60, 3.53, 2.54, 4.75, 3.98, 2.69, 3.34, 3.17]

/-- Ordered pitch-class names (analyze_audio.py line 79): the sharp-spelled
chromatic scale from C (index 0) to B (index 11). -/
def pitch_classes : Fin 12 → String := fun i =>
  match i.val with
  | 0 => "C"
  | 1 => "C#"
  | 2 => "D"
  | 3 => "D#"
  | 4 => "E"
  | 5 => "F"
  | 6 => "F#"
  | 7 => "G"
  | 8 => "G#"
  | 9 => "A"
  | 10 => "A#"
  | _ => "B"

/-- `np.roll(p, i)`: cyclic shift moving index 0 to index `i`,
so `(np_roll p i) j = p ((j - i) mod 12)`. -/
def np_roll (p : Chroma) (i : Fin 12) : Chroma := fun j => p (j - i)

/-- Mean of the 12 components (used inside `np.corrcoef`). -/
def cMean (x : Chroma) : ℚ := (∑ j, x j) / 12

/-- Centered cross-sum `∑ (x j - mean x) * (y j - mean y)`: the covariance
of `x` and `y` up to the constant factor 1/12, which cancels in every
correlation. -/
def rawCov (x y : Chroma) : ℚ := ∑ j, (x j - cMean x) * (y j - cMean y)

/-- The signed square of the Pearson correlation coefficient of `x` and `y`:
`corr * |corr|` where `corr = cov / (√(var x) * √(var y))`.  Rational, and
related to the correlation itself by the strictly monotone map `t ↦ t * |t|`
(see `pearson_mulAbs`), hence interchangeable with it in every comparison
performed by `detect_key`. -/
def sscVal (x y : Chroma) : ℚ :=
  rawCov x y * |rawCov x y| / (rawCov x x * rawCov y y)

/-- Major / minor mode of a candidate key. -/
inductive Mode
  | major
  | minor
deriving DecidableEq

/-- The reference profile for a mode. -/
def keyTemplate : Mode → Chroma
  | .major => major_profile
  | .minor => minor_profile

/-- The rotated template a candidate `(i, m)` is scored against:
`np.roll(major_profile, i)` resp. `np.roll(minor_profile, i)`. -/
def rotTemplate (c : Fin 12 × Mode) : Chroma := np_roll (keyTemplate c.2) c.1

/-- Rendering of a candidate key, e.g. `keyName 0 .major = "C major"`
(the f-strings at analyze_audio.py lines 91 and 98). -/
def keyName (i : Fin 12) (m : Mode) : String :=
  pitch_classes i ++ (match m with | .major => " major" | .minor => " minor")

/-- The 24 candidates in the exact iteration order of the source loop
(analyze_audio.py lines 85-98): rotation 0 to 11, and within each rotation
the major candidate before the minor one. -/
def key_candidates : List (Fin 12 × Mode) :=
  (List.finRange 12).flatMap fun i => [(i, Mode.major), (i, Mode.minor)]

/-- The score the loop computes for candidate `c` on chroma input `x`
(the signed-square representation of `np.corrcoef(x, rotated)[0, 1]`). -/
def keyScore (x : Chroma) (c : Fin 12 × Mode) : ℚ := sscVal x (rotTemplate c)

/-- One iteration of the best-so-far update (analyze_audio.py lines 89-91 /
96-98): replace the running `(best_correlation, detected_key)` pair exactly
when the candidate's correlation is defined (no zero variance on either
side: `np.corrcoef` would yield NaN, and `NaN > best` is false) and is
strictly greater than the running best. -/
def key_step (x : Chroma) (acc : ℚ × String) (c : Fin 12 × Mode) : ℚ × String :=
  if (rawCov x x ≠ 0 ∧ rawCov (rotTemplate c) (rotTemplate c) ≠ 0) ∧ keyScore x c > acc.1 then
    (keyScore x c, keyName c.1 c.2)
  else acc

/-- The full detection loop: fold the update over the 24 candidates starting
from `best_correlation = -1`, `detected_key = 'C major'` (analyze_audio.py
lines 81-98).  Returns the final `(best_correlation, detected_key)` pair,
the score in signed-square representation. -/
def detect_key_best (x : Chroma) : ℚ × String :=
  key_candidates.foldl (key_step x) (-1, "C major")

/-- `detect_key` (analyze_audio.py lines 63-100): the detected key string. -/
def detect_key (x : Chroma) : String := (detect_key_best x).2

/-- `detect_bpm` (analyze_audio.py lines 57-60): `round(float(tempo))`.
Python's built-in `round` rounds halves to the nearest even integer. -/
def detect_bpm (tempo : ℚ) : ℤ :=
  if tempo - ⌊tempo⌋ < 1/2 then ⌊tempo⌋
  else if 1/2 < tempo - ⌊tempo⌋ then ⌊tempo⌋ + 1
  else if ⌊tempo⌋ % 2 = 0 then ⌊tempo⌋ else ⌊tempo⌋ + 1

/-- `estimate_genre` (analyze_audio.py lines 103-134), at the boundary where
the spectral features and the rounded tempo are already computed: the
if/elif chain, first matching rule wins. -/
def estimate_genre (spectral_centroid spectral_rolloff zero_crossing_rate : ℚ)
    (tempo : ℤ) : String :=
  if spectral_centroid > 3000 ∧ zero_crossing_rate > 0.15 then
    if tempo > 140 then "Rock" else "Metal"
  else if spectral_centroid < 1500 then
    if tempo < 100 then "Blues" else "R&B"
  else if tempo > 160 then "Punk"
  else if tempo < 90 ∧ spectral_rolloff < 3000 then "Jazz"
  else if 90 ≤ tempo ∧ tempo ≤ 120 then "Pop"
  else if 120 < tempo ∧ tempo ≤ 140 then "Rock"
  else "Other"

/-- `SCALE_RECOMMENDATIONS` (analyze_audio.py lines 24-54), in source order.
Key lookup is exact-string; the dict has no duplicate keys
(`scale_keys_nodup`), so association-list lookup models `dict.get`. -/
def SCALE_RECOMMENDATIONS : List (String × List String) :=
  [("C major", ["C Major (Ionian)", "C Major Pentatonic", "A Minor Pentatonic", "A Natural Minor"]),
   ("C minor", ["C Minor (Aeolian)", "C Minor Pentatonic", "C Dorian", "C Blues Scale"]),
   ("C# major", ["C# Major (Ionian)", "C# Major Pentatonic", "A# Minor Pentatonic"]),
   ("Db major", ["Db Major (Ionian)", "Db Major Pentatonic", "Bb Minor Pentatonic"]),
   ("C# minor", ["C# Minor (Aeolian)", "C# Minor Pentatonic", "C# Dorian"]),
   ("D major", ["D Major (Ionian)", "D Major Pentatonic", "B Minor Pentatonic", "D Mixolydian"]),
   ("D minor", ["D Minor (Aeolian)", "D Minor Pentatonic", "D Dorian", "D Blues Scale"]),
   ("D# major", ["D# Major (Ionian)", "D# Major Pentatonic", "C Minor Pentatonic"]),
   ("Eb major", ["Eb Major (Ionian)", "Eb Major Pentatonic", "C Minor Pentatonic"]),
   ("D# minor", ["D# Minor (Aeolian)", "D# Minor Pentatonic", "D# Dorian"]),
   ("E major", ["E Major (Ionian)", "E Major Pentatonic", "C# Minor Pentatonic", "E Mixolydian"]),
   ("E minor", ["E Minor (Aeolian)", "E Minor Pentatonic", "E Dorian", "E Blues Scale"]),
   ("F major", ["F Major (Ionian)", "F Major Pentatonic", "D Minor Pentatonic", "F Lydian"]),
   ("F minor", ["F Minor (Aeolian)", "F Minor Pentatonic", "F Dorian", "F Blues Scale"]),
   ("F# major", ["F# Major (Ionian)", "F# Major Pentatonic", "D# Minor Pentatonic"]),
   ("Gb major", ["Gb Major (Ionian)", "Gb Major Pentatonic", "Eb Minor Pentatonic"]),
   ("F# minor", ["F# Minor (Aeolian)", "F# Minor Pentatonic", "F# Dorian"]),
   ("G major", ["G Major (Ionian)", "G Major Pentatonic", "E Minor Pentatonic", "G Mixolydian"]),
   ("G minor", ["G Minor (Aeolian)", "G Minor Pentatonic", "G Dorian", "G Blues Scale"]),
   ("G# major", ["G# Major (Ionian)", "G# Major Pentatonic", "F Minor Pentatonic"]),
   ("Ab major", ["Ab Major (Ionian)", "Ab Major Pentatonic", "F Minor Pentatonic"]),
   ("G# minor", ["G# Minor (Aeolian)", "G# Minor Pentatonic", "G# Dorian"]),
   ("A major", ["A Major (Ionian)", "A Major Pentatonic", "F# Minor Pentatonic", "A Mixolydian"]),
   ("A minor", ["A Minor (Aeolian)", "A Minor Pentatonic", "A Dorian", "A Blues Scale"]),
   ("A# major", ["A# Major (Ionian)", "A# Major Pentatonic", "G Minor Pentatonic"]),
   ("Bb major", ["Bb Major (Ionian)", "Bb Major Pentatonic", "G Minor Pentatonic"]),
   ("A# minor", ["A# Minor (Aeolian)", "A# Minor Pentatonic", "A# Dorian"]),
   ("B major", ["B Major (Ionian)", "B Major Pentatonic", "G# Minor Pentatonic", "B Mixolydian"]),
   ("B minor", ["B Minor (Aeolian)", "B Minor Pentatonic", "B Dorian", "B Blues Scale"])]

/-- `get_scale_recommendations` (analyze_audio.py lines 137-139):
`SCALE_RECOMMENDATIONS.get(key, default)`. -/
def get_scale_recommendations (key : String) : List String :=
  (SCALE_RECOMMENDATIONS.lookup key).getD
    ["Major Pentatonic", "Minor Pentatonic", "Blues Scale"]

/-- Python `str.split()` on a character list: split on whitespace runs,
dropping empty pieces (accumulator holds the current word reversed). -/
def py_split_chars : List Char → List Char → List String
  | [], acc => if acc = [] then [] else [String.mk acc.reverse]
  | c :: rest, acc =>
    if c = ' ' then
      if acc = [] then py_split_chars rest []
      else String.mk acc.reverse :: py_split_chars rest []
    else py_split_chars rest (c :: acc)

/-- Python `key.split()` (analyze_audio.py line 161). -/
def py_split (s : String) : List String := py_split_chars s.toList []

/-- The key formatting step of `analyze_audio` (lines 160-165): `"X minor"`
becomes `"Xm"`, anything else two-token keeps its first token.  `none`
models the `IndexError` Python would raise on `key_parts[1]` when the split
yields fewer than two tokens (it is caught by the surrounding `try`). -/
def format_key (key : String) : Option String :=
  match py_split key with
  | p :: m :: _ => some (if m = "minor" then p ++ "m" else p)
  | _ => none

/-- The per-field confidence levels of a successful result. -/
structure Confidence where
  bpm : String
  key : String
  genre : String
deriving DecidableEq

/-- The JSON-dict result of `analyze_audio`: on success all musical fields
are populated and `error` is absent; on failure only `error` is present. -/
structure AnalysisResult where
  success : Bool
  bpm : Option ℤ
  key : Option String
  genre : Option String
  scales : Option (List String)
  confidence : Option Confidence
  error : Option String
deriving DecidableEq

/-- The data the external collaborators (librosa decode + feature
extraction, spec §6) deliver for the first 60 seconds of audio. -/
structure AudioFeatures where
  chroma_mean : Chroma
  tempo : ℚ
  spectral_centroid : ℚ
  spectral_rolloff : ℚ
  zero_crossing_rate : ℚ

/-- `analyze_audio` (analyze_audio.py lines 142-184).  The argument is the
outcome of the external decode/extraction: `Except.error e` models an
exception with message `e` raised inside the `try` block by the external
collaborators, answered by the `except` handler (lines 180-184).  The source
computes the genre's tempo by calling `detect_bpm` on the same signal
(line 114), which yields the same rounded value passed here. -/
def analyze_audio (ext : Except String AudioFeatures) : AnalysisResult :=
  match ext with
  | .error e => ⟨false, none, none, none, none, none, some e⟩
  | .ok f =>
    let bpm := detect_bpm f.tempo
    let key := detect_key f.chroma_mean
    let genre := estimate_genre f.spectral_centroid f.spectral_rolloff
      f.zero_crossing_rate bpm
    let scales := get_scale_recommendations key
    match format_key key with
    | some kf => ⟨true, some bpm, some kf, some genre, some scales,
        some ⟨"high", "medium", "low"⟩, none⟩
    | none => ⟨false, none, none, none, none, none, some "list index out of range"⟩

/-- The 24 strings `detect_key` can produce, in candidate order. -/
def valid_keys : List String := key_candidates.map fun c => keyName c.1 c.2

/-- The genuine Pearson correlation coefficient of two chroma vectors over
ℝ, exactly as `np.corrcoef(x, y)[0, 1]` computes it (idealizing float
arithmetic as real arithmetic): covariance over the product of standard
deviations; the 1/12 normalizations cancel. -/
noncomputable def pearson (x y : Chroma) : ℝ :=
  (rawCov x y : ℝ) / (Real.sqrt (rawCov x x : ℝ) * Real.sqrt (rawCov y y : ℝ))

/-- The best-so-far update written over ℝ with the genuine correlation,
mirroring the source comparison `corr > best_correlation` literally. -/
noncomputable def key_stepR (x : Chroma) (acc : ℝ × String) (c : Fin 12 × Mode) : ℝ × String :=
  if pearson x (rotTemplate c) > acc.1 then
    (pearson x (rotTemplate c), keyName c.1 c.2)
  else acc

/-- The detection loop over ℝ with the genuine Pearson correlation.
`detect_key_bestR_eq` proves it selects the same key as the executable
`detect_key_best`, whose score it determines through `t ↦ t * |t|`. -/
noncomputable def detect_key_bestR (x : Chroma) : ℝ × String :=
  key_candidates.foldl (key_stepR x) (-1, "C major")

/-- The chroma input used to exhibit a tie: the sum of the major template
and its rotation by 6.  By symmetry of the centered cross-sums, rotations 0
and 6 of the major profile receive exactly the same correlation, and that
shared value is the top score over all 24 candidates. -/
def tie_chroma : Chroma := fun j => major_profile j + np_roll major_profile 6 j

/-- A uniformly-zero chroma vector never updates the best-so-far pair:
every candidate correlation has a zero-variance input, `np.corrcoef`
returns NaN, and `NaN > best` is false. -/
lemma key_fold_of_var_zero (x : Chroma) (hx : rawCov x x = 0) :
    ∀ (l : List (Fin 12 × Mode)) (acc : ℚ × String), List.foldl (key_step x) acc l = acc := by
  intro l
  induction l with
  | nil => intro acc; rfl
  | cons c rest ih =>
    intro acc
    rw [List.foldl_cons, show key_step x acc c = acc from by simp [key_step, hx]]
    exact ih acc

/-- If no remaining candidate scores strictly above the accumulator, the
fold leaves the accumulator unchanged (later equal scores are not
adopted). -/
lemma key_fold_no_update (x : Chroma) :
    ∀ (l : List (Fin 12 × Mode)) (acc : ℚ × String),
      (∀ c ∈ l, keyScore x c ≤ acc.1) → List.foldl (key_step x) acc l = acc := by
  intro l
  induction l with
  | nil => intro acc _; rfl
  | cons c rest ih =>
    intro acc h
    have hc : key_step x acc c = acc := by
      apply if_neg
      rintro ⟨-, hgt⟩
      exact absurd hgt (not_lt.2 (h c (List.mem_cons_self c rest)))
    rw [List.foldl_cons, hc]
    exact ih acc fun c' hc' => h c' (List.mem_cons_of_mem _ hc')

/-- The strict-greater update selects the first position achieving the
maximal score: if position `j` scores at least every candidate, strictly
above every earlier position, and strictly above the accumulator, the fold
returns position `j`'s score and name. -/
lemma key_fold_first_max (x : Chroma) :
    ∀ (l : List (Fin 12 × Mode)) (j : ℕ) (hj : j < l.length) (acc : ℚ × String),
      (∀ c ∈ l, rawCov (rotTemplate c) (rotTemplate c) ≠ 0) →
      rawCov x x ≠ 0 →
      (∀ c ∈ l, keyScore x c ≤ keyScore x (l.get ⟨j, hj⟩)) →
      (∀ k : Fin l.length, (k : ℕ) < j → keyScore x (l.get k) < keyScore x (l.get ⟨j, hj⟩)) →
      acc.1 < keyScore x (l.get ⟨j, hj⟩) →
      List.foldl (key_step x) acc l =
        (keyScore x (l.get ⟨j, hj⟩), keyName (l.get ⟨j, hj⟩).1 (l.get ⟨j, hj⟩).2) := by
  intro l
  induction l with
  | nil => intro j hj; simp at hj
  | cons c rest ih =>
    intro j hj acc hQ hx htop hfirst hacc
    cases j with
    | zero =>
      have hstep : key_step x acc c = (keyScore x c, keyName c.1 c.2) :=
        if_pos ⟨⟨hx, hQ c (List.mem_cons_self c rest)⟩, hacc⟩
      rw [List.foldl_cons, hstep]
      exact key_fold_no_update x rest _ fun c' h' => htop c' (List.mem_cons_of_mem _ h')
    | succ k =>
      have hjr : k < rest.length := Nat.succ_lt_succ_iff.1 hj
      have hget : (c :: rest).get ⟨k + 1, hj⟩ = rest.get ⟨k, hjr⟩ := rfl
      have hacc' : (key_step x acc c).1 < keyScore x (rest.get ⟨k, hjr⟩) := by
        have hc0 : keyScore x c < keyScore x ((c :: rest).get ⟨k + 1, hj⟩) :=
          hfirst ⟨0, Nat.succ_pos _⟩ (Nat.succ_pos k)
        rw [hget] at hc0
        unfold key_step
        split
        · exact hc0
        · rw [hget] at hacc; exact hacc
      rw [List.foldl_cons, hget]
      refine ih k hjr (key_step x acc c)
        (fun c' h' => hQ c' (List.mem_cons_of_mem _ h')) hx
        (fun c' h' => by
          have := htop c' (List.mem_cons_of_mem _ h')
          rwa [hget] at this)
        (fun k' hk' => by
          have := hfirst ⟨k'.val + 1, Nat.succ_lt_succ k'.isLt⟩ (Nat.succ_lt_succ hk')
          rwa [hget] at this)
        hacc'

/-- The detected key is either the initial default or the name of one of
the visited candidates. -/
lemma key_fold_snd_mem (x : Chroma) :
    ∀ (l : List (Fin 12 × Mode)) (acc : ℚ × String),
      (List.foldl (key_step x) acc l).2 = acc.2 ∨
        ∃ c ∈ l, (List.foldl (key_step x) acc l).2 = keyName c.1 c.2 := by
  intro l
  induction l with
  | nil => intro acc; exact Or.inl rfl
  | cons c rest ih =>
    intro acc
    rw [List.foldl_cons]
    rcases ih (key_step x acc c) with h | ⟨c', hc', h⟩
    · by_cases hcond : (rawCov x x ≠ 0 ∧ rawCov (rotTemplate c) (rotTemplate c) ≠ 0) ∧
        keyScore x c > acc.1
      · right
        exact ⟨c, List.mem_cons_self c rest, by rw [h]; simp [key_step, hcond]⟩
      · left
        rw [h]; simp [key_step, hcond]
    · exact Or.inr ⟨c', List.mem_cons_of_mem _ hc', h⟩

/-- `detect_key` always produces one of the 24 candidate key strings. -/
lemma detect_key_mem_valid (x : Chroma) : detect_key x ∈ valid_keys := by
  unfold detect_key detect_key_best
  rcases key_fold_snd_mem x key_candidates (-1, "C major") with h | ⟨c, hc, h⟩
  · rw [h]; decide
  · rw [h]
    exact List.mem_map.2 ⟨c, hc, rfl⟩

/-- Each of the 24 rotated reference templates has nonzero variance, so a
correlation against it is defined whenever the input side's variance is. -/
lemma rotTemplate_var_ne :
    ∀ c ∈ key_candidates, rawCov (rotTemplate c) (rotTemplate c) ≠ 0 := by decide

/-- A centered self cross-sum is a sum of squares. -/
lemma rawCov_self_nonneg (x : Chroma) : 0 ≤ rawCov x x := by
  unfold rawCov
  exact Finset.sum_nonneg fun j _ => mul_self_nonneg _

/-- The signed-square map `t ↦ t * |t|` is strictly monotone, so it
preserves every comparison of correlation values. -/
lemma mulAbs_strictMono : StrictMono (fun t : ℝ => t * |t|) := by
  intro a b hab
  simp only
  rcases le_or_lt 0 a with ha | ha
  · have hb : 0 < b := lt_of_le_of_lt ha hab
    rw [abs_of_nonneg ha, abs_of_pos hb]
    exact mul_self_lt_mul_self ha hab
  · rcases le_or_lt 0 b with hb | hb
    · calc a * |a| < 0 := by rw [abs_of_neg ha]; nlinarith
        _ ≤ b * |b| := mul_nonneg hb (abs_nonneg b)
    · rw [abs_of_neg ha, abs_of_neg hb]
      nlinarith

/-- When both variances are nonzero, `sscVal` is exactly the image of the
Pearson correlation under `t ↦ t * |t|`. -/
lemma pearson_mulAbs (x y : Chroma) (hx : rawCov x x ≠ 0) (hy : rawCov y y ≠ 0) :
    pearson x y * |pearson x y| = ((sscVal x y : ℚ) : ℝ) := by
  have hx0 : (0 : ℚ) < rawCov x x := lt_of_le_of_ne (rawCov_self_nonneg x) (Ne.symm hx)
  have hy0 : (0 : ℚ) < rawCov y y := lt_of_le_of_ne (rawCov_self_nonneg y) (Ne.symm hy)
  have hxr : (0 : ℝ) < (rawCov x x : ℝ) := by exact_mod_cast hx0
  have hyr : (0 : ℝ) < (rawCov y y : ℝ) := by exact_mod_cast hy0
  have hsx : (0 : ℝ) < Real.sqrt (rawCov x x : ℝ) := Real.sqrt_pos.2 hxr
  have hsy : (0 : ℝ) < Real.sqrt (rawCov y y : ℝ) := Real.sqrt_pos.2 hyr
  have key : Real.sqrt (rawCov x x : ℝ) * Real.sqrt (rawCov y y : ℝ) *
      (Real.sqrt (rawCov x x : ℝ) * Real.sqrt (rawCov y y : ℝ)) =
      (rawCov x x : ℝ) * (rawCov y y : ℝ) := by
    rw [mul_mul_mul_comm, Real.mul_self_sqrt hxr.le, Real.mul_self_sqrt hyr.le]
  unfold pearson sscVal
  push_cast
  rw [abs_div, abs_of_pos (mul_pos hsx hsy)]
  rw [div_mul_div_comm, key]

/-- Faithfulness of the executable detector: on any input whose variance is
nonzero (so no NaN arises), the real-valued loop `detect_key_bestR`,
written with the genuine Pearson correlation, selects the same key as the
executable `detect_key_best`, and the executable best score is the
signed square of the real best score. -/
theorem detect_key_bestR_eq (x : Chroma) (hx : rawCov x x ≠ 0) :
    (detect_key_bestR x).2 = detect_key x ∧
      (detect_key_bestR x).1 * |(detect_key_bestR x).1| = ((detect_key_best x).1 : ℝ) := by
  suffices h : ∀ (l : List (Fin 12 × Mode)),
      (∀ c ∈ l, rawCov (rotTemplate c) (rotTemplate c) ≠ 0) →
      ∀ (accR : ℝ × String) (acc : ℚ × String), accR.2 = acc.2 →
      accR.1 * |accR.1| = (acc.1 : ℝ) →
      (List.foldl (key_stepR x) accR l).2 = (List.foldl (key_step x) acc l).2 ∧
      (List.foldl (key_stepR x) accR l).1 * |(List.foldl (key_stepR x) accR l).1| =
        ((List.foldl (key_step x) acc l).1 : ℝ) by
    have hmain := h key_candidates rotTemplate_var_ne (-1, "C major") (-1, "C major")
      rfl (by norm_num)
    exact ⟨hmain.1, hmain.2⟩
  intro l
  induction l with
  | nil => intro _ accR acc h2 h1; exact ⟨h2, h1⟩
  | cons c rest ih =>
    intro hQl accR acc h2 h1
    have hcy : rawCov (rotTemplate c) (rotTemplate c) ≠ 0 :=
      hQl c (List.mem_cons_self c rest)
    have hphi : pearson x (rotTemplate c) * |pearson x (rotTemplate c)| =
        ((keyScore x c : ℚ) : ℝ) := pearson_mulAbs x (rotTemplate c) hx hcy
    have hcond : (pearson x (rotTemplate c) > accR.1) ↔
        ((rawCov x x ≠ 0 ∧ rawCov (rotTemplate c) (rotTemplate c) ≠ 0) ∧
          keyScore x c > acc.1) := by
      have hlt := mulAbs_strictMono.lt_iff_lt
        (a := accR.1) (b := pearson x (rotTemplate c))
      constructor
      · intro hgt
        refine ⟨⟨hx, hcy⟩, ?_⟩
        have hq : accR.1 * |accR.1| <
            pearson x (rotTemplate c) * |pearson x (rotTemplate c)| := hlt.2 hgt
        rw [h1, hphi] at hq
        exact_mod_cast hq
      · rintro ⟨-, hgt⟩
        apply hlt.1
        rw [h1, hphi]
        exact_mod_cast hgt
    rw [List.foldl_cons, List.foldl_cons]
    by_cases hc : (rawCov x x ≠ 0 ∧ rawCov (rotTemplate c) (rotTemplate c) ≠ 0) ∧
        keyScore x c > acc.1
    · have hstepR : key_stepR x accR c =
          (pearson x (rotTemplate c), keyName c.1 c.2) := if_pos (hcond.2 hc)
      have hstep : key_step x acc c = (keyScore x c, keyName c.1 c.2) := if_pos hc
      rw [hstepR, hstep]
      exact ih (fun c' h' => hQl c' (List.mem_cons_of_mem _ h')) _ _ rfl hphi
    · have hstepR : key_stepR x accR c = accR := if_neg fun hgt => hc (hcond.1 hgt)
      have hstep : key_step x acc c = acc := if_neg hc
      rw [hstepR, hstep]
      exact ih (fun c' h' => hQl c' (List.mem_cons_of_mem _ h')) _ _ h2 h1

/-- Claim C1 counterexample: on the uniformly-zero chroma vector the
KeyDetector does not fail: the input's variance is zero, so every candidate
correlation is undefined (`np.corrcoef` yields NaN), every comparison with
the running best is false, and the default key 'C major' is returned
silently. -/
theorem detect_key_zero_chroma_default :
    rawCov (fun _ => 0 : Chroma) (fun _ => 0 : Chroma) = 0 ∧
      detect_key (fun _ => 0 : Chroma) = "C major" := by
  constructor
  · decide
  · rfl

/-- Claim C1 (amended): a zero-variance chroma vector (in particular the
uniformly-zero one) makes every candidate correlation undefined; no
comparison succeeds, the best-so-far pair never updates, and the
KeyDetector silently returns the sentinel score -1 with the default key
'C major' instead of failing. -/
theorem detect_key_zero_variance (x : Chroma) (hx : rawCov x x = 0) :
    detect_key_best x = (-1, "C major") :=
  key_fold_of_var_zero x hx key_candidates (-1, "C major")

/-- Witness for C1 (amended) at the uniformly-zero chroma vector. -/
theorem detect_key_zero_variance_w :
    detect_key_best (fun _ => 0 : Chroma) = (-1, "C major") :=
  detect_key_zero_variance (fun _ => 0) (by decide)

/-- Claim C2: the KeyDetector replaces its best-so-far candidate only on a
strictly greater correlation, so the candidate at position `j` of the
iteration order (rotation 0..11, major before minor) is returned whenever
it scores at least every candidate and strictly above every earlier one;
in particular, of two candidates tied at the top score the one encountered
first wins.  Scores are in the signed-square representation, which the
strictly monotone map `t ↦ t * |t|` carries comparisons of the Pearson
correlation to. -/
theorem detect_key_tie_break (x : Chroma) (j : Fin key_candidates.length)
    (hx : rawCov x x ≠ 0)
    (htop : ∀ c ∈ key_candidates, keyScore x c ≤ keyScore x (key_candidates.get j))
    (hfirst : ∀ k : Fin key_candidates.length, (k : ℕ) < (j : ℕ) →
      keyScore x (key_candidates.get k) < keyScore x (key_candidates.get j))
    (hsent : -1 < keyScore x (key_candidates.get j)) :
    detect_key x = keyName (key_candidates.get j).1 (key_candidates.get j).2 := by
  unfold detect_key detect_key_best
  rw [key_fold_first_max x key_candidates j.val j.isLt (-1, "C major")
    rotTemplate_var_ne hx htop hfirst hsent]

/-- Witness for C2: `tie_chroma` gives candidates (0, major) and (6, major)
exactly the same top correlation, and the detector resolves the tie to
'C major', the candidate encountered first. -/
theorem detect_key_tie_break_w :
    keyScore tie_chroma (0, Mode.major) = keyScore tie_chroma (6, Mode.major) ∧
      detect_key tie_chroma = "C major" := by
  constructor
  · decide
  · have h := detect_key_tie_break tie_chroma ⟨0, by decide⟩ (by decide)
      (by decide) (by decide) (by decide)
    exact h.trans (by decide)

/-- Claim C10: on every chroma input the detected key is one of the 24
candidate strings built from the sharp-spelled pitch-class table; in
particular it is never one of the flat-spelled ScaleTable keys, it always
splits into exactly two whitespace-separated tokens, and the formatting
step is total on it. -/
theorem detect_key_range (x : Chroma) :
    detect_key x ∈ valid_keys ∧
      detect_key x ∉ ["Db major", "Eb major", "Gb major", "Ab major", "Bb major"] ∧
      (py_split (detect_key x)).length = 2 ∧
      (format_key (detect_key x)).isSome = true := by
  have hmem := detect_key_mem_valid x
  have hall : ∀ k ∈ valid_keys,
      k ∉ ["Db major", "Eb major", "Gb major", "Ab major", "Bb major"] ∧
        (py_split k).length = 2 ∧ (format_key k).isSome = true := by decide
  exact ⟨hmem, (hall _ hmem).1, (hall _ hmem).2.1, (hall _ hmem).2.2⟩

/-- Claim C3: for each of the 24 canonical (pitch class, mode) pairs,
running the detector on the correspondingly rotated reference profile
returns exactly that pair's key name, with the winning score 1 (a Pearson
correlation of exactly 1.0 in the signed-square representation). -/
theorem detect_key_on_profiles :
    ∀ i : Fin 12,
      detect_key_best (np_roll major_profile i) = (1, keyName i Mode.major) ∧
      detect_key_best (np_roll minor_profile i) = (1, keyName i Mode.minor) := by decide

/-- Claim C4: the genre rules are evaluated in order with first-match-wins
semantics: any feature vector satisfying rule 1's guard (centroid > 3000,
zero-crossing rate > 0.15) with a tempo in rule 6's range (120 < t ≤ 140)
is decided by rule 1 and classified 'Metal' (tempo not above 140), not by
rule 6. -/
theorem estimate_genre_rule_one (c r z : ℚ) (t : ℤ) (hc : c > 3000) (hz : z > 0.15)
    (_ht1 : 120 < t) (ht2 : t ≤ 140) :
    estimate_genre c r z t = "Metal" := by
  unfold estimate_genre
  rw [if_pos ⟨hc, hz⟩, if_neg (not_lt.2 ht2)]

/-- Witness for C4 at the spec's example feature vector
(centroid 3500, zcr 0.2, tempo 130). -/
theorem estimate_genre_rule_one_w : estimate_genre 3500 4000 0.2 130 = "Metal" :=
  estimate_genre_rule_one 3500 4000 0.2 130 (by decide) (by decide) (by decide) (by decide)

/-- Claim C5: the pipeline never lets a collaborator failure escape and
never returns partial results: a decode/extraction failure with message `e`
yields exactly `{success := false, error := e}` with no musical fields,
and every successful run populates every musical field together with the
constant confidence mapping and no error. -/
theorem analyze_audio_no_partial :
    (∀ e, analyze_audio (Except.error e) = ⟨false, none, none, none, none, none, some e⟩) ∧
    (∀ f, ∃ b k g s, analyze_audio (Except.ok f) =
      ⟨true, some b, some k, some g, some s, some ⟨"high", "medium", "low"⟩, none⟩) := by
  constructor
  · intro e; rfl
  · intro f
    have hv := detect_key_mem_valid f.chroma_mean
    have hsome : ∀ k ∈ valid_keys, (format_key k).isSome = true := by decide
    obtain ⟨kf, hkf⟩ := Option.isSome_iff_exists.1 (hsome _ hv)
    refine ⟨detect_bpm f.tempo, kf,
      estimate_genre f.spectral_centroid f.spectral_rolloff f.zero_crossing_rate
        (detect_bpm f.tempo),
      get_scale_recommendations (detect_key f.chroma_mean), ?_⟩
    simp only [analyze_audio, hkf]

/-- Claim C6: key formatting is total and pure on all 24 canonical key
strings: every '〈name〉 minor' maps to '〈name〉m' and every '〈name〉 major'
maps to bare '〈name〉'. -/
theorem format_key_all_keys :
    ∀ i : Fin 12,
      format_key (pitch_classes i ++ " minor") = some (pitch_classes i ++ "m") ∧
      format_key (pitch_classes i ++ " major") = some (pitch_classes i) := by decide

/-- Association-list lookup returns the tabulated value of any present key
when the keys are distinct. -/
lemma lookup_eq_of_mem :
    ∀ (l : List (String × List String)), (l.map Prod.fst).Nodup →
      ∀ k v, (k, v) ∈ l → l.lookup k = some v := by
  intro l
  induction l with
  | nil => intro _ k v h; simp at h
  | cons p rest ih =>
    obtain ⟨a, b⟩ := p
    intro hnd k v hmem
    rcases List.mem_cons.1 hmem with heq | hmem'
    · obtain ⟨rfl, rfl⟩ := Prod.mk.injEq .. ▸ heq
      simp [List.lookup]
    · have hk : k ≠ a := by
        rintro rfl
        have hmap : k ∈ rest.map Prod.fst := List.mem_map.2 ⟨(k, v), hmem', rfl⟩
        simp only [List.map_cons, List.nodup_cons] at hnd
        exact hnd.1 hmap
      have hbeq : (k == a) = false := beq_eq_false_iff_ne.2 hk
      simp only [List.lookup, hbeq]
      simp only [List.map_cons, List.nodup_cons] at hnd
      exact ih hnd.2 k v hmem'

/-- Association-list lookup misses exactly the absent keys. -/
lemma lookup_eq_none_of_not_mem :
    ∀ (l : List (String × List String)) (k : String), k ∉ l.map Prod.fst →
      l.lookup k = none := by
  intro l
  induction l with
  | nil => intro k _; rfl
  | cons p rest ih =>
    obtain ⟨a, b⟩ := p
    intro k hk
    simp only [List.map_cons, List.mem_cons, not_or] at hk
    have hbeq : (k == a) = false := beq_eq_false_iff_ne.2 hk.1
    simp only [List.lookup, hbeq]
    exact ih k hk.2

/-- The 29 keys of SCALE_RECOMMENDATIONS are pairwise distinct. -/
lemma scale_keys_nodup : (SCALE_RECOMMENDATIONS.map Prod.fst).Nodup := by decide

/-- Claim C7: the ScaleRecommender returns the table's ordered list on an
exact string match and the fixed default triple otherwise; in particular
'G major' gets the tabulated 4-entry list headed by 'G Major (Ionian)'. -/
theorem get_scale_recommendations_spec :
    (∀ k v, (k, v) ∈ SCALE_RECOMMENDATIONS → get_scale_recommendations k = v) ∧
    (∀ k, k ∉ SCALE_RECOMMENDATIONS.map Prod.fst →
      get_scale_recommendations k = ["Major Pentatonic", "Minor Pentatonic", "Blues Scale"]) ∧
    get_scale_recommendations "G major" =
      ["G Major (Ionian)", "G Major Pentatonic", "E Minor Pentatonic", "G Mixolydian"] := by
  refine ⟨fun k v h => ?_, fun k h => ?_, ?_⟩
  · unfold get_scale_recommendations
    rw [lookup_eq_of_mem SCALE_RECOMMENDATIONS scale_keys_nodup k v h]
    rfl
  · unfold get_scale_recommendations
    rw [lookup_eq_none_of_not_mem SCALE_RECOMMENDATIONS k h]
    rfl
  · decide

/-- Witness for C7: a tabulated key ('C minor') returns its own list, an
untabulated key ('H major') falls back to the default triple. -/
theorem get_scale_recommendations_w :
    get_scale_recommendations "C minor" =
      ["C Minor (Aeolian)", "C Minor Pentatonic", "C Dorian", "C Blues Scale"] ∧
    get_scale_recommendations "H major" =
      ["Major Pentatonic", "Minor Pentatonic", "Blues Scale"] :=
  ⟨get_scale_recommendations_spec.1 "C minor" _ (by decide),
   get_scale_recommendations_spec.2.1 "H major" (by decide)⟩

/-- Claim C8: every successful result carries the constant confidence
mapping bpm = high, key = medium, genre = low, independent of the input
features (the levels are literals in the source, lines 173-177). -/
theorem analyze_audio_confidence_constant (ext : Except String AudioFeatures)
    (h : (analyze_audio ext).success = true) :
    (analyze_audio ext).confidence = some ⟨"high", "medium", "low"⟩ := by
  cases ext with
  | error e => simp [analyze_audio] at h
  | ok f =>
    cases hfk : format_key (detect_key f.chroma_mean) with
    | none => simp [analyze_audio, hfk] at h
    | some kf => simp [analyze_audio, hfk]

/-- Witness for C8 at a concrete successful run. -/
theorem analyze_audio_confidence_constant_w :
    (analyze_audio (Except.ok ⟨major_profile, 130, 3500, 4000, 0.2⟩)).confidence =
      some ⟨"high", "medium", "low"⟩ :=
  analyze_audio_confidence_constant (Except.ok ⟨major_profile, 130, 3500, 4000, 0.2⟩)
    (by decide)

/-- Claim C9 counterexample: zero and negative tempo estimates are not
rejected: `detect_bpm` rounds them like any other value (`round(0.0) = 0`,
`round(-2.5) = -2`), and the pipeline run with a zero tempo estimate
reports success with bpm 0 instead of an input-validation error. -/
theorem detect_bpm_no_validation :
    detect_bpm 0 = 0 ∧ detect_bpm (-(5/2)) = -2 ∧
      (analyze_audio (Except.ok ⟨major_profile, 0, 3500, 4000, 0.2⟩)).success = true ∧
      (analyze_audio (Except.ok ⟨major_profile, 0, 3500, 4000, 0.2⟩)).bpm = some 0 := by
  refine ⟨by decide, by decide, ?_⟩
  have : analyze_audio (Except.ok ⟨major_profile, 0, 3500, 4000, 0.2⟩) =
      ⟨true, some 0, some "C", some "Metal",
        some ["C Major (Ionian)", "C Major Pentatonic", "A Minor Pentatonic", "A Natural Minor"],
        some ⟨"high", "medium", "low"⟩, none⟩ := by decide
  rw [this]
  exact ⟨rfl, rfl⟩

/-- Claim C9 (amended): `detect_bpm` returns a nearest integer under the
consistently fixed round-half-to-even rule (Python's built-in `round`);
negative or zero tempo estimates are not validated — the same rounding is
applied to every rational input. -/
theorem detect_bpm_round_half_even (q : ℚ) :
    |q - (detect_bpm q : ℚ)| ≤ 1/2 ∧ (q - ⌊q⌋ = 1/2 → detect_bpm q % 2 = 0) := by
  have h0 : (⌊q⌋ : ℚ) ≤ q := Int.floor_le q
  have h1 : q < ⌊q⌋ + 1 := Int.lt_floor_add_one q
  unfold detect_bpm
  split_ifs with hr1 hr2 hev
  · constructor
    · rw [abs_of_nonneg (by linarith)]; linarith
    · intro ht; rw [ht] at hr1; exact absurd hr1 (lt_irrefl _)
  · constructor
    · push_cast
      rw [abs_of_nonpos (by linarith)]
      linarith
    · intro ht; rw [ht] at hr2; exact absurd hr2 (lt_irrefl _)
  · have ht : q - ⌊q⌋ = 1/2 := le_antisymm (not_lt.1 hr2) (not_lt.1 hr1)
    constructor
    · rw [abs_of_nonneg (by linarith)]; linarith
    · intro _; exact hev
  · have ht : q - ⌊q⌋ = 1/2 := le_antisymm (not_lt.1 hr2) (not_lt.1 hr1)
    constructor
    · push_cast
      rw [abs_of_nonpos (by linarith)]
      linarith
    · intro _
      omega

/-- Witness for C9 (amended) at the tie 5/2: the result 2 is within a half
of 5/2 and even. -/
theorem detect_bpm_round_half_even_w :
    |(5/2 : ℚ) - (detect_bpm (5/2) : ℚ)| ≤ 1/2 ∧ detect_bpm (5/2) % 2 = 0 :=
  ⟨(detect_bpm_round_half_even (5/2)).1,
   (detect_bpm_round_half_even (5/2)).2 (by decide)⟩

/-- Witness for C10 at the uniformly-zero chroma vector (whose detected
key is the default 'C major'). -/
theorem detect_key_range_w :
    detect_key (fun _ => 0 : Chroma) ∈ valid_keys ∧
      detect_key (fun _ => 0 : Chroma) ∉
        ["Db major", "Eb major", "Gb major", "Ab major", "Bb major"] ∧
      (py_split (detect_key (fun _ => 0 : Chroma))).length = 2 ∧
      (format_key (detect_key (fun _ => 0 : Chroma))).isSome = true :=
  detect_key_range (fun _ => 0)

end AnalyzeAudio
